import Mathlib

/-!
Verification development for the witness-archive data browser (src/app.py).

The app loads a CSV into a pandas DataFrame, resolves column roles by alias
lists (pick_column / load_data), filters the frame by sidebar selections
(lines 140-157), aggregates value counts for charts, and builds one-line
display labels for a testimony picker (lines 346-367).

Shallow embedding conventions:
- a DataFrame row is a record of role-keyed optional cells (a cell of value
  none models a pandas NaN / NaT); column access in the app always goes
  through the resolved role column, so rows are keyed by role;
- the meta dict of load_data is the Meta structure, a field of none models a
  role with no matching column (pick_column returned its None default);
- the sidebar state is the Selection structure: selected_emotions etc. are
  none exactly when the app sets them to None (column absent), and the date
  range is none exactly when start_date and end_date are None;
- pandas dates are calendar triples ordered lexicographically; strftime with
  the %Y-%m-%d format is fmtDate;
- Series.isin on a NaN cell is False, modelled by keep_isin;
- Series.value_counts drops NaN, counts distinct values in order of first
  occurrence and stable-sorts by descending count, modelled by value_counts;
- sort_values(date_col, ascending=False) places missing dates last,
  modelled by a stable merge sort with dateDescLe.
-/

/-- A calendar date as stored in a parsed pandas datetime column. -/
structure Date where
  year : Nat
  month : Nat
  day : Nat
deriving DecidableEq, Repr

/-- Chronological order on dates: lexicographic on (year, month, day). -/
def Date.le (a b : Date) : Prop :=
  a.year < b.year ∨
    (a.year = b.year ∧ (a.month < b.month ∨ (a.month = b.month ∧ a.day ≤ b.day)))

instance (a b : Date) : Decidable (Date.le a b) := by
  unfold Date.le
  exact inferInstance

theorem Date.le_trans {a b c : Date} (h1 : Date.le a b) (h2 : Date.le b c) :
    Date.le a c := by
  unfold Date.le at *
  omega

theorem Date.le_refl (a : Date) : Date.le a a := by
  unfold Date.le
  omega

theorem Date.le_total (a b : Date) : Date.le a b ∨ Date.le b a := by
  unfold Date.le
  omega

/-- Zero-pad a number to two digits, as strftime does for %m and %d. -/
def pad2 (n : Nat) : String :=
  if n < 10 then "0" ++ toString n else toString n

/-- Zero-pad a number to four digits, as strftime does for %Y. -/
def pad4 (n : Nat) : String :=
  if n < 10 then "000" ++ toString n
  else if n < 100 then "00" ++ toString n
  else if n < 1000 then "0" ++ toString n
  else toString n

/-- strftime with format %Y-%m-%d (app.py line 357). -/
def fmtDate (d : Date) : String :=
  pad4 d.year ++ "-" ++ pad2 d.month ++ "-" ++ pad2 d.day

/-- One row of the Record Table, keyed by semantic role. A cell of none is a
missing value (pandas NaN / NaT). -/
structure Row where
  title : Option String := none
  emotion : Option String := none
  theme : Option String := none
  source : Option String := none
  date : Option Date := none
  text : Option String := none
  url : Option String := none
deriving DecidableEq, Repr

/-- The meta dict built by load_data (app.py lines 42-50): the resolved
column name per role, or none when no alias matched. -/
structure Meta where
  title_col : Option String := none
  emotion_col : Option String := none
  theme_col : Option String := none
  source_col : Option String := none
  date_col : Option String := none
  text_col : Option String := none
  url_col : Option String := none
deriving DecidableEq, Repr

/-- The sidebar filter state (app.py lines 84-137). A categorical selection
is none exactly when the app sets it to None because the column is absent;
the date range is none exactly when start_date and end_date are None. -/
structure Selection where
  selected_emotions : Option (List String) := none
  selected_themes : Option (List String) := none
  selected_sources : Option (List String) := none
  dateRange : Option (Date × Date) := none
deriving DecidableEq, Repr

/-- pick_column (app.py lines 14-19): return the first column name from
candidates that exists in the table, using the default of None when no
candidate matches. -/
def pick_column (columns : List String) : List String → Option String
  | [] => none
  | c :: rest => if c ∈ columns then some c else pick_column columns rest

/-- The column-role detection of load_data (app.py lines 27-36). -/
def detectMeta (columns : List String) : Meta :=
  { title_col := pick_column columns ["Title", "Article Title", "Headline"]
    emotion_col := pick_column columns ["Emotion", "Primary Emotion", "emotion_label"]
    theme_col := pick_column columns ["Theme", "Primary Theme", "Topic"]
    source_col := pick_column columns ["Source", "Outlet", "Publication"]
    date_col := pick_column columns ["Publication Date", "Date", "Published", "Date Published"]
    text_col := pick_column columns
      ["Quote", "Narrative", "Excerpt", "Snippet", "Summary", "Full Text", "Text", "Content", "Body"]
    url_col := pick_column columns ["URL", "Link", "Article URL"] }

/-- Series.isin semantics on one cell: a NaN cell is never a member. -/
def keep_isin (sel : List String) (cell : Option String) : Bool :=
  match cell with
  | some v => sel.contains v
  | none => false

/-- One categorical filter step (app.py lines 142-149). The Python guard
if col and selected: runs the isin filter only when the column was resolved
AND the selection list is non-None and non-empty (an empty list is falsy in
Python, so an explicitly empty selection skips the filter). -/
def applyCatFilter (col : Option String) (sel : Option (List String))
    (get : Row → Option String) (rows : List Row) : List Row :=
  match col, sel with
  | some _, some l =>
      if l.isEmpty then rows else rows.filter (fun r => keep_isin l (get r))
  | _, _ => rows

/-- The date mask on one cell (app.py lines 152-156): a NaT date compares
False on both sides, so it is excluded whenever the mask is applied. -/
def keep_date (s e : Date) (cell : Option Date) : Bool :=
  match cell with
  | some d => decide (Date.le s d) && decide (Date.le d e)
  | none => false

/-- The date filter step (app.py lines 151-157), applied only when a date
column was resolved and both ends of the range are set (date objects are
always truthy in Python, so the guard is exactly non-None-ness). -/
def applyDateFilter (col : Option String) (range : Option (Date × Date))
    (rows : List Row) : List Row :=
  match col, range with
  | some _, some (s, e) => rows.filter (fun r => keep_date s e r.date)
  | _, _ => rows

/-- The full filter pipeline (app.py lines 140-157): emotion, theme, source,
then date, composed by logical AND. -/
def filtered_df (meta : Meta) (sel : Selection) (df : List Row) : List Row :=
  applyDateFilter meta.date_col sel.dateRange
    (applyCatFilter meta.source_col sel.selected_sources Row.source
      (applyCatFilter meta.theme_col sel.selected_themes Row.theme
        (applyCatFilter meta.emotion_col sel.selected_emotions Row.emotion df)))

/-- sorted(df[col].dropna().unique()) (app.py lines 85, 94, 103): the
distinct non-missing values of a role column, in ascending string order. -/
def observedValues (get : Row → Option String) (df : List Row) : List String :=
  ((df.filterMap get).dedup).mergeSort (fun a b => decide (a ≤ b))

/-- The distinct elements of a list in order of first occurrence, as the
hashtable underlying Series.value_counts produces them. -/
def firstOccs : List String → List String
  | [] => []
  | a :: l => a :: firstOccs (l.filter (fun x => decide (x ≠ a)))
termination_by l => l.length
decreasing_by
  simp only [List.length_cons]
  exact Nat.lt_succ_of_le (List.length_filter_le _ _)

/-- Series.value_counts (app.py lines 252-257, 283-288): drop NaN, count
each distinct value, and stable-sort the (value, count) pairs by descending
count; ties therefore stay in first-occurrence order. -/
def value_counts (cells : List (Option String)) : List (String × Nat) :=
  let vals := cells.filterMap id
  ((firstOccs vals).map (fun k => (k, vals.count k))).mergeSort
    (fun a b => decide (b.2 ≤ a.2))

/-- emotion_counts (app.py lines 251-257). -/
def emotion_counts (meta : Meta) (sel : Selection) (df : List Row) :
    List (String × Nat) :=
  value_counts ((filtered_df meta sel df).map Row.emotion)

/-- theme_counts (app.py lines 282-288). -/
def theme_counts (meta : Meta) (sel : Selection) (df : List Row) :
    List (String × Nat) :=
  value_counts ((filtered_df meta sel df).map Row.theme)

/-- The comparator of sort_values(date_col, ascending=False) with the
default na_position of last: dates descending, missing dates at the end. -/
def dateDescLe (a b : Row) : Bool :=
  match a.date, b.date with
  | some x, some y => decide (Date.le y x)
  | some _, none => true
  | none, some _ => false
  | none, none => true

/-- The viewer re-sort (app.py lines 346-347): sort by date descending when
a date column exists, otherwise keep load order. -/
def sortView (meta : Meta) (rows : List Row) : List Row :=
  match meta.date_col with
  | some _ => rows.mergeSort dateDescLe
  | none => rows

/-- title_val (app.py line 354): the title cell when the title column is
resolved and the cell is non-missing, else the literal Untitled fallback. -/
def title_val (meta : Meta) (r : Row) : String :=
  match meta.title_col, r.title with
  | some _, some t => t
  | _, _ => "Untitled"

/-- source_val (app.py line 355). -/
def source_val (meta : Meta) (r : Row) : String :=
  match meta.source_col, r.source with
  | some _, some s => s
  | _, _ => "Unknown source"

/-- date_val (app.py lines 356-359). -/
def date_val (meta : Meta) (r : Row) : String :=
  match meta.date_col, r.date with
  | some _, some d => fmtDate d
  | _, _ => "No date"

/-- The one-line display label (app.py line 361). -/
def label (meta : Meta) (r : Row) : String :=
  title_val meta r ++ " — " ++ source_val meta r ++ " — " ++ date_val meta r

/-- Row selection by label (app.py lines 365-367): the labels list is the
view mapped through label, labels.index finds the first matching position,
and loc returns the row stored at that position (row indices are unique). -/
def selectRowByLabel (meta : Meta) (view : List Row) (lbl : String) :
    Option Row :=
  match (view.map (label meta)).findIdx? (fun s => s == lbl) with
  | some i => view[i]?
  | none => none

/-! Helper lemmas -/

theorem mem_observedValues {get : Row → Option String} {df : List Row} {v : String} :
    v ∈ observedValues get df ↔ ∃ r ∈ df, get r = some v := by
  unfold observedValues
  simp [List.mem_mergeSort, List.mem_dedup, List.mem_filterMap]

theorem applyCatFilter_sublist (col : Option String) (sel : Option (List String))
    (get : Row → Option String) (rows : List Row) :
    List.Sublist (applyCatFilter col sel get rows) rows := by
  unfold applyCatFilter
  split
  · split
    · exact List.Sublist.refl _
    · exact List.filter_sublist _
  · exact List.Sublist.refl _

theorem applyDateFilter_sublist (col : Option String) (rng : Option (Date × Date))
    (rows : List Row) : List.Sublist (applyDateFilter col rng rows) rows := by
  unfold applyDateFilter
  split
  · exact List.filter_sublist _
  · exact List.Sublist.refl _

theorem keep_date_iff {s e : Date} {cell : Option Date} :
    keep_date s e cell = true ↔ ∃ d, cell = some d ∧ Date.le s d ∧ Date.le d e := by
  cases cell <;> simp [keep_date]

/-- C3: when a date constraint with endpoints start and end is active, a
row is kept by the date predicate iff its parsed date is some d with
start ≤ d ≤ end (both inclusive); a row whose date is missing is excluded
while a constraint is active, and every row passes the date step when no
constraint is active (range not set, or no date column). -/
theorem c3_date_predicate (c : String) (s e : Date) (df : List Row) (r : Row)
    (col : Option String) (rng : Option (Date × Date)) :
    (r ∈ applyDateFilter (some c) (some (s, e)) df ↔
      r ∈ df ∧ ∃ d, r.date = some d ∧ Date.le s d ∧ Date.le d e)
    ∧ applyDateFilter col none df = df
    ∧ applyDateFilter none rng df = df := by
  refine ⟨?_, ?_, ?_⟩
  · simp [applyDateFilter, List.mem_filter, keep_date_iff]
  · cases col <;> rfl
  · cases rng <;> rfl

/-- C4: the filter step is a total function (the embedding of lines
140-157 of app.py never fails), and a date interval whose start is after
its end yields an empty Filtered View: no date can satisfy both bounds and
missing dates are excluded by the active mask. -/
theorem c4_invalid_range_empty (meta : Meta) (sel : Selection) (df : List Row)
    (c : String) (s e : Date) (hc : meta.date_col = some c)
    (hr : sel.dateRange = some (s, e)) (hse : ¬ Date.le s e) :
    filtered_df meta sel df = [] := by
  unfold filtered_df
  rw [hc, hr]
  unfold applyDateFilter
  rw [List.filter_eq_nil_iff]
  intro r _ hk
  obtain ⟨d, _, hsd, hde⟩ := keep_date_iff.mp hk
  exact hse (Date.le_trans hsd hde)

theorem c4_witness : filtered_df { date_col := some "Date" }
    { dateRange := some (⟨2024, 5, 1⟩, ⟨2024, 1, 1⟩) }
    [{ date := some ⟨2024, 3, 1⟩ }] = [] :=
  c4_invalid_range_empty _ _ _ "Date" _ _ rfl rfl (by decide)

/-- C8: pick_column resolves a role to the first name of its ordered alias
list that occurs among the table columns; when no alias occurs the role is
absent (none); as an Option-valued function each role maps to at most one
column. -/
theorem c8_pick_column (columns : List String) (cands : List String) :
    (∀ c, pick_column columns cands = some c →
      c ∈ columns ∧ ∃ l1 l2, cands = l1 ++ c :: l2 ∧ ∀ x ∈ l1, x ∉ columns)
    ∧ (pick_column columns cands = none ↔ ∀ c ∈ cands, c ∉ columns) := by
  induction cands with
  | nil => simp [pick_column]
  | cons a rest ih =>
    by_cases ha : a ∈ columns
    · simp only [pick_column, if_pos ha]
      constructor
      · intro c hc
        obtain rfl : a = c := by injection hc
        exact ⟨ha, [], rest, rfl, by simp⟩
      · simp [ha]
    · simp only [pick_column, if_neg ha]
      constructor
      · intro c hc
        obtain ⟨hcol, l1, l2, hsplit, hmiss⟩ := ih.1 c hc
        exact ⟨hcol, a :: l1, l2, by rw [hsplit]; rfl, by
          intro x hx
          rcases List.mem_cons.mp hx with h | h
          · exact h ▸ ha
          · exact hmiss x h⟩
      · rw [ih.2]
        simp [ha]

theorem c8_witness :
    pick_column ["X", "Emotion Label", "emotion_label"] ["Emotion", "Primary Emotion", "emotion_label"] = some "emotion_label"
    ∧ "emotion_label" ∈ ["X", "Emotion Label", "emotion_label"] := by
  refine ⟨by decide, ?_⟩
  exact (c8_pick_column ["X", "Emotion Label", "emotion_label"] ["Emotion", "Primary Emotion", "emotion_label"] |>.1 "emotion_label" (by decide)).1

/-- C9: the Filtered View is a subsequence of the Record Table (no row
fabrication, load order preserved by every filter step), and the only
reordering is the documented date-descending viewer re-sort, which is a
permutation of the Filtered View and is the identity when no date column
exists. -/
theorem c9_subsequence (meta : Meta) (sel : Selection) (df : List Row) :
    List.Sublist (filtered_df meta sel df) df
    ∧ (sortView meta (filtered_df meta sel df)).Perm (filtered_df meta sel df)
    ∧ (meta.date_col = none → ∀ v : List Row, sortView meta v = v) := by
  refine ⟨?_, ?_, ?_⟩
  · unfold filtered_df
    exact ((applyDateFilter_sublist _ _ _).trans
      ((applyCatFilter_sublist _ _ _ _).trans
        ((applyCatFilter_sublist _ _ _ _).trans
          (applyCatFilter_sublist _ _ _ _))))
  · unfold sortView
    cases meta.date_col <;> simp
    exact List.mergeSort_perm _ _
  · intro h v
    unfold sortView
    rw [h]

theorem c9_witness :
    List.Sublist (filtered_df { emotion_col := some "Emotion" } { selected_emotions := some ["a"] }
      [{ emotion := some "a" }, { emotion := none }])
        [{ emotion := some "a" }, { emotion := none }]
    ∧ sortView { emotion_col := some "Emotion" } ([] : List Row) = [] := by
  constructor
  · exact (c9_subsequence _ _ _).1
  · exact (c9_subsequence { emotion_col := some "Emotion" } {} []).2.2 rfl []

/-! C1 and C2 -/

theorem applyCatFilter_id (col : Option String) (sel : Option (List String))
    (get : Row → Option String) (df : List Row)
    (h : ∀ c l, col = some c → sel = some l → l ≠ [] →
      ∀ r ∈ df, ∃ v, get r = some v ∧ v ∈ l) :
    applyCatFilter col sel get df = df := by
  unfold applyCatFilter
  split
  · rename_i c l
    by_cases hl : l.isEmpty
    · rw [if_pos hl]
    · rw [if_neg hl]
      apply List.filter_eq_self.mpr
      intro r hr
      obtain ⟨v, hv, hvl⟩ := h c l rfl rfl (by simpa using hl) r hr
      simp [keep_isin, hv]
      exact hvl
  · rfl

theorem applyDateFilter_id (col : Option String) (rng : Option (Date × Date))
    (df : List Row)
    (h : ∀ c s e, col = some c → rng = some (s, e) →
      ∀ r ∈ df, ∃ d, r.date = some d ∧ Date.le s d ∧ Date.le d e) :
    applyDateFilter col rng df = df := by
  unfold applyDateFilter
  split
  · rename_i c s e
    apply List.filter_eq_self.mpr
    intro r hr
    exact keep_date_iff.mpr (h c s e rfl rfl r hr)
  · rfl

unseal List.merge List.mergeSort in
/-- C1 counterexample: with the emotion selection equal to the full observed
value set, a row with a missing emotion cell is dropped, so the Filtered
View is not the full Record Table. -/
theorem c1_counterexample :
    some ["a"] =
      some (observedValues Row.emotion [{ emotion := some "a" }, { emotion := none }])
    ∧ filtered_df { emotion_col := some "Emotion" } { selected_emotions := some ["a"] }
        [{ emotion := some "a" }, { emotion := none }]
      = [{ emotion := some "a" }]
    ∧ [({ emotion := some "a" } : Row)] ≠
        [{ emotion := some "a" }, { emotion := none }] := by
  refine ⟨rfl, rfl, by decide⟩

/-- C1 (amended): the identity law holds once every row has a non-missing
value in each mapped categorical column and a non-missing date whenever a
date constraint is active: with every categorical selection equal (as a set)
to the full observed-value set and the date interval covering all of the
dates of the table (as the interval from the minimum to the maximum does),
the Filtered View equals the full Record Table, every row kept, same order.
The unamended claim fails because isin against the full observed set drops
rows whose cell is missing (see the counterexample). -/
theorem c1_identity_law_amended (meta : Meta) (sel : Selection) (df : List Row)
    (he : meta.emotion_col.isSome →
      ∃ l, sel.selected_emotions = some l ∧ ∀ v, v ∈ l ↔ v ∈ observedValues Row.emotion df)
    (ht : meta.theme_col.isSome →
      ∃ l, sel.selected_themes = some l ∧ ∀ v, v ∈ l ↔ v ∈ observedValues Row.theme df)
    (hs : meta.source_col.isSome →
      ∃ l, sel.selected_sources = some l ∧ ∀ v, v ∈ l ↔ v ∈ observedValues Row.source df)
    (hd : ∀ s e, sel.dateRange = some (s, e) → ∀ r ∈ df, ∀ d, r.date = some d →
      Date.le s d ∧ Date.le d e)
    (me : meta.emotion_col.isSome → ∀ r ∈ df, (Row.emotion r).isSome)
    (mt : meta.theme_col.isSome → ∀ r ∈ df, (Row.theme r).isSome)
    (ms : meta.source_col.isSome → ∀ r ∈ df, (Row.source r).isSome)
    (md : meta.date_col.isSome → sel.dateRange.isSome → ∀ r ∈ df, (Row.date r).isSome) :
    filtered_df meta sel df = df := by
  have cat : ∀ (col : Option String) (s : Option (List String)) (get : Row → Option String),
      (col.isSome → ∃ l, s = some l ∧ ∀ v, v ∈ l ↔ v ∈ observedValues get df) →
      (col.isSome → ∀ r ∈ df, (get r).isSome) →
      applyCatFilter col s get df = df := by
    intro col s get hfull hmiss
    apply applyCatFilter_id
    intro c l hc hl hne r hr
    obtain ⟨l2, hsel, hobs⟩ := hfull (by simp [hc])
    rw [hsel] at hl
    injection hl with hll
    subst hll
    obtain ⟨v, hv⟩ := Option.isSome_iff_exists.mp (hmiss (by simp [hc]) r hr)
    exact ⟨v, hv, (hobs v).mpr (mem_observedValues.mpr ⟨r, hr, hv⟩)⟩
  have h1 := cat meta.emotion_col sel.selected_emotions Row.emotion he me
  have h2 := cat meta.theme_col sel.selected_themes Row.theme ht mt
  have h3 := cat meta.source_col sel.selected_sources Row.source hs ms
  have h4 : applyDateFilter meta.date_col sel.dateRange df = df := by
    apply applyDateFilter_id
    intro c s e hc hrng r hrr
    obtain ⟨d, hdd⟩ := Option.isSome_iff_exists.mp
      (md (by simp [hc]) (by simp [hrng]) r hrr)
    obtain ⟨hsd, hde⟩ := hd s e hrng r hrr d hdd
    exact ⟨d, hdd, hsd, hde⟩
  unfold filtered_df
  rw [h1, h2, h3, h4]

unseal List.merge List.mergeSort in
theorem c1_identity_law_witness :
    filtered_df { emotion_col := some "Emotion" } { selected_emotions := some ["a"] }
      [{ emotion := some "a" }] = [{ emotion := some "a" }] := by
  apply c1_identity_law_amended
  · intro _
    exact ⟨["a"], rfl, fun v => Iff.rfl⟩
  · intro h
    simp at h
  · intro h
    simp at h
  · intro s e h
    simp at h
  · intro _ r hr
    rw [List.mem_singleton] at hr
    subst hr
    rfl
  · intro h
    simp at h
  · intro h
    simp at h
  · intro _ h
    simp at h

/-- C2 counterexample: an explicitly empty emotion selection does not
exclude all rows; the filter step is skipped and the full table is kept. -/
theorem c2_counterexample :
    filtered_df { emotion_col := some "Emotion" } { selected_emotions := some [] }
      [{ emotion := some "a" }] = [{ emotion := some "a" }]
    ∧ [({ emotion := some "a" } : Row)] ≠ ([] : List Row) :=
  ⟨rfl, by decide⟩

/-- C2 (amended): an explicitly empty categorical selection does NOT
exclude all rows: the Python truthiness guard skips the filter, keeping all
rows, exactly like the initialization state. The initialization default (the
full observed-value set, when non-empty) instead keeps exactly the rows with
a non-missing value for the role, so the two states differ only on rows
with missing values, not in the way the claim states. -/
theorem c2_empty_selection_amended (c : String) (get : Row → Option String)
    (df : List Row) (l : List String)
    (hobs : ∀ v, v ∈ l ↔ v ∈ observedValues get df) (hne : l ≠ []) :
    applyCatFilter (some c) (some []) get df = df
    ∧ applyCatFilter (some c) (some l) get df = df.filter (fun r => (get r).isSome) := by
  constructor
  · rfl
  · show (if l.isEmpty then df else df.filter (fun r => keep_isin l (get r)))
        = df.filter (fun r => (get r).isSome)
    rw [if_neg (by simpa using hne)]
    apply List.filter_congr
    intro r hr
    cases hv : get r with
    | none => simp [keep_isin, hv]
    | some v =>
      simp [keep_isin, hv]
      exact (hobs v).mpr (mem_observedValues.mpr ⟨r, hr, hv⟩)

unseal List.merge List.mergeSort in
theorem c2_empty_selection_witness :
    applyCatFilter (some "Emotion") (some []) Row.emotion
      [{ emotion := some "a" }, { emotion := none }]
      = [{ emotion := some "a" }, { emotion := none }]
    ∧ applyCatFilter (some "Emotion") (some ["a"]) Row.emotion
      [{ emotion := some "a" }, { emotion := none }]
      = [{ emotion := some "a" }] := by
  have h := c2_empty_selection_amended "Emotion" Row.emotion
    [{ emotion := some "a" }, { emotion := none }] ["a"] (fun v => Iff.rfl) (by decide)
  exact ⟨h.1, h.2.trans rfl⟩

/-- C6: the one-line display label is the title value, the source value
and the date formatted YYYY-MM-DD joined in this order by the separator
of a spaced em-dash, with the literal fallback Untitled when the title is
missing; the witness instantiates the Raid at 26th St / Tribune /
2024-03-10 scenario of the spec. -/
theorem c6_display_label (meta : Meta) (r : Row) (t s : String) (d : Date)
    (hm1 : meta.title_col.isSome) (hm2 : meta.source_col.isSome)
    (hm3 : meta.date_col.isSome) (hsv : r.source = some s) (hdv : r.date = some d) :
    (r.title = some t → label meta r = t ++ " — " ++ s ++ " — " ++ fmtDate d)
    ∧ (r.title = none → label meta r = "Untitled" ++ " — " ++ s ++ " — " ++ fmtDate d) := by
  obtain ⟨c1, hc1⟩ := Option.isSome_iff_exists.mp hm1
  obtain ⟨c2, hc2⟩ := Option.isSome_iff_exists.mp hm2
  obtain ⟨c3, hc3⟩ := Option.isSome_iff_exists.mp hm3
  unfold label title_val source_val date_val
  rw [hc1, hc2, hc3, hsv, hdv]
  constructor
  · intro h
    rw [h]
  · intro h
    rw [h]

theorem c6_display_label_witness :
    label { title_col := some "Title", source_col := some "Source",
            date_col := some "Publication Date" }
      { title := some "Raid at 26th St", source := some "Tribune",
        date := some ⟨2024, 3, 10⟩ }
      = "Raid at 26th St — Tribune — 2024-03-10"
    ∧ label { title_col := some "Title", source_col := some "Source",
              date_col := some "Publication Date" }
      { title := none, source := some "Tribune", date := some ⟨2024, 3, 10⟩ }
      = "Untitled — Tribune — 2024-03-10" := by
  have h1 := c6_display_label
    { title_col := some "Title", source_col := some "Source",
      date_col := some "Publication Date" }
    { title := some "Raid at 26th St", source := some "Tribune",
      date := some ⟨2024, 3, 10⟩ }
    "Raid at 26th St" "Tribune" ⟨2024, 3, 10⟩ rfl rfl rfl rfl rfl
  have h2 := c6_display_label
    { title_col := some "Title", source_col := some "Source",
      date_col := some "Publication Date" }
    { title := none, source := some "Tribune", date := some ⟨2024, 3, 10⟩ }
    "x" "Tribune" ⟨2024, 3, 10⟩ rfl rfl rfl rfl rfl
  exact ⟨(h1.1 rfl).trans (by decide), (h2.2 rfl).trans (by decide)⟩

/-- C10: the display label always consists of exactly three segments
joined by a spaced em-dash; a missing or absent source contributes the
literal placeholder Unknown source, a missing or absent date the literal
placeholder No date, and a missing or absent title the literal Untitled,
rather than the segments being omitted. -/
theorem c10_label_three_segments (meta : Meta) (r : Row) :
    label meta r
      = title_val meta r ++ " — " ++ source_val meta r ++ " — " ++ date_val meta r
    ∧ ((meta.source_col = none ∨ r.source = none) → source_val meta r = "Unknown source")
    ∧ ((meta.date_col = none ∨ r.date = none) → date_val meta r = "No date")
    ∧ ((meta.title_col = none ∨ r.title = none) → title_val meta r = "Untitled") := by
  refine ⟨rfl, ?_, ?_, ?_⟩
  · intro h
    unfold source_val
    rcases h with h | h <;> rw [h] <;>
      first
      | rfl
      | (cases r.source <;> rfl)
      | (cases meta.source_col <;> rfl)
  · intro h
    unfold date_val
    rcases h with h | h <;> rw [h] <;>
      first
      | rfl
      | (cases r.date <;> rfl)
      | (cases meta.date_col <;> rfl)
  · intro h
    unfold title_val
    rcases h with h | h <;> rw [h] <;>
      first
      | rfl
      | (cases r.title <;> rfl)
      | (cases meta.title_col <;> rfl)

theorem c10_witness :
    label { title_col := some "Title" } { title := some "T" }
      = "T — Unknown source — No date" := by
  have h := c10_label_three_segments { title_col := some "Title" }
    ({ title := some "T" } : Row)
  rw [h.1, h.2.1 (Or.inl rfl), h.2.2.1 (Or.inl rfl)]
  decide

/-- C7: selecting a display label that occurs in the view resolves to the
first row carrying that label in the current order of the view (which is
date-descending when a date column exists, else load order): there is an
index i holding the returned row whose label matches, and every earlier
position holds a row with a different label. -/
theorem c7_first_match (meta : Meta) (rows : List Row) (lbl : String)
    (h : lbl ∈ (sortView meta rows).map (label meta)) :
    ∃ (i : Nat) (r : Row), (sortView meta rows)[i]? = some r
      ∧ selectRowByLabel meta (sortView meta rows) lbl = some r
      ∧ label meta r = lbl
      ∧ ∀ j : Nat, j < i →
          ∃ r2, (sortView meta rows)[j]? = some r2 ∧ label meta r2 ≠ lbl := by
  have hex : ∃ x, x ∈ (sortView meta rows).map (label meta) ∧ (x == lbl) = true :=
    ⟨lbl, h, by simp⟩
  have hfind := List.findIdx?_eq_some_of_exists hex
  obtain ⟨hlen, hp, hprev⟩ := List.findIdx?_eq_some_iff_getElem.mp hfind
  have hlen2 : ((sortView meta rows).map (label meta)).findIdx (fun x => x == lbl)
      < (sortView meta rows).length := by
    simpa using hlen
  refine ⟨((sortView meta rows).map (label meta)).findIdx (fun x => x == lbl),
    (sortView meta rows).get ⟨_, hlen2⟩, ?_, ?_, ?_, ?_⟩
  · simp [List.getElem?_eq_getElem hlen2]
  · unfold selectRowByLabel
    rw [hfind]
    simp [List.getElem?_eq_getElem hlen2]
  · have hp2 := hp
    rw [List.getElem_map] at hp2
    simpa using hp2
  · intro j hj
    have hjv : j < (sortView meta rows).length := Nat.lt_trans hj hlen2
    refine ⟨(sortView meta rows).get ⟨j, hjv⟩, by simp [List.getElem?_eq_getElem hjv], ?_⟩
    have hne := hprev j hj
    rw [List.getElem_map] at hne
    simpa using hne

theorem c7_witness :
    ∃ (i : Nat) (r : Row), (sortView { title_col := some "Title" }
        [{ title := some "T", emotion := some "x" },
         { title := some "T", emotion := some "y" }])[i]? = some r
      ∧ selectRowByLabel { title_col := some "Title" }
          (sortView { title_col := some "Title" }
            [{ title := some "T", emotion := some "x" },
             { title := some "T", emotion := some "y" }])
          "T — Unknown source — No date" = some r
      ∧ label { title_col := some "Title" } r = "T — Unknown source — No date"
      ∧ ∀ j : Nat, j < i → ∃ r2, (sortView { title_col := some "Title" }
          [{ title := some "T", emotion := some "x" },
           { title := some "T", emotion := some "y" }])[j]? = some r2
          ∧ label { title_col := some "Title" } r2 ≠ "T — Unknown source — No date" :=
  c7_first_match { title_col := some "Title" }
    [{ title := some "T", emotion := some "x" },
     { title := some "T", emotion := some "y" }]
    "T — Unknown source — No date" (by decide)

unseal List.merge List.mergeSort firstOccs in
/-- C5 counterexample: two labels with equal counts come out in first
occurrence order (b before a), not in natural label sort order. -/
theorem c5_counterexample :
    emotion_counts { emotion_col := some "Emotion" } {}
      [{ emotion := some "b" }, { emotion := some "a" }]
      = [("b", 1), ("a", 1)]
    ∧ ¬ List.Pairwise (fun a b : String × Nat => b.2 < a.2 ∨ (a.2 = b.2 ∧ a.1 < b.1))
        [("b", 1), ("a", 1)] := by
  refine ⟨rfl, ?_⟩
  intro h
  have := (List.pairwise_cons.mp h).1 ("a", 1) (by simp)
  rcases this with h1 | ⟨_, h2⟩
  · omega
  · rw [String.lt_iff_toList_lt] at h2
    exact absurd h2 (by decide)

/-- C5 (amended): the label-to-count mapping used for charts (emotion and
theme value counts over the Filtered View) is ordered by descending count;
labels with equal counts keep their order of first occurrence in the view
column (the stable sort by count preserves it), not the label natural sort
order the claim states. -/
theorem c5_ordering_amended (meta : Meta) (sel : Selection) (df : List Row) :
    (emotion_counts meta sel df).Pairwise (fun a b => b.2 ≤ a.2)
    ∧ (theme_counts meta sel df).Pairwise (fun a b => b.2 ≤ a.2)
    ∧ (∀ (cells : List (Option String)) (k1 k2 : String),
        List.Sublist [k1, k2] (firstOccs (cells.filterMap id)) →
        (cells.filterMap id).count k2 ≤ (cells.filterMap id).count k1 →
        List.Sublist [(k1, (cells.filterMap id).count k1),
                      (k2, (cells.filterMap id).count k2)]
          (value_counts cells)) := by
  have trans : ∀ a b c : String × Nat, decide (b.2 ≤ a.2) = true →
      decide (c.2 ≤ b.2) = true → decide (c.2 ≤ a.2) = true := by
    intro a b c h1 h2
    simp at h1 h2 ⊢
    omega
  have total : ∀ a b : String × Nat,
      (decide (b.2 ≤ a.2) || decide (a.2 ≤ b.2)) = true := by
    intro a b
    simp
    omega
  have sorted : ∀ cells : List (Option String),
      (value_counts cells).Pairwise (fun a b => b.2 ≤ a.2) := by
    intro cells
    have h := @List.sorted_mergeSort (String × Nat)
      (fun a b => decide (b.2 ≤ a.2)) trans total
      ((firstOccs (cells.filterMap id)).map
        (fun k => (k, (cells.filterMap id).count k)))
    unfold value_counts
    exact h.imp (by simp)
  refine ⟨sorted _, sorted _, ?_⟩
  intro cells k1 k2 hsub hcnt
  have hmap : List.Sublist
      [(k1, (cells.filterMap id).count k1), (k2, (cells.filterMap id).count k2)]
      ((firstOccs (cells.filterMap id)).map
        (fun k => (k, (cells.filterMap id).count k))) := by
    have := hsub.map (fun k => (k, (cells.filterMap id).count k))
    simpa using this
  unfold value_counts
  exact List.pair_sublist_mergeSort trans total (by simpa using hcnt) hmap

unseal List.merge List.mergeSort firstOccs in
theorem c5_ordering_witness :
    List.Sublist [("b", 1), ("a", 1)] (value_counts [some "b", some "a"]) := by
  have h := (c5_ordering_amended {} {} []).2.2 [some "b", some "a"] "b" "a"
  have h1 : List.Sublist ["b", "a"]
      (firstOccs (([some "b", some "a"] : List (Option String)).filterMap id)) := by
    show List.Sublist ["b", "a"] ["b", "a"]
    exact List.Sublist.refl _
  exact h h1 (by decide)
